import Mathlib

/-!
Verification of the SQL-dump tuple parser and serializers of
`transform_sql_graphql.py` (country-state-city-graphql).

The Python source is shallowly embedded: the character-by-character scanner
state of `extract_tuples_respecting_quotes` and `split_by_comma_robust`
becomes explicit state records, Python string/list operations become
`List Char` operations, fallible positional row indexing becomes `Option`,
and the post-parse pipeline of `main` becomes a total function into
`Except` (an error value models the Python exception raised before any
output file is written).
-/

/-- Python whitespace class used by `str.strip()` (ASCII part; the inputs
scanned here are ASCII). -/
def isPyWs (c : Char) : Bool :=
  c == ' ' || c == '\t' || c == '\n' || c == '\r' || c == '\x0b' || c == '\x0c'

/-- Remove the maximal run of characters satisfying `p` from both ends of a
list: the common shape of Python's `str.strip` / `str.strip(chars)`. -/
def stripRun (p : Char → Bool) (l : List Char) : List Char :=
  ((l.dropWhile p).reverse.dropWhile p).reverse

/-- Python `s.strip()` on a string. -/
def py_strip (s : String) : String :=
  (stripRun isPyWs s.data).asString

/-- Python `v.strip().strip("'").strip('"')`: the per-field cleanup applied
by `parse_sql_file` to every raw field before the row is stored
(line 77 of the source). -/
def clean_field (v : String) : String :=
  (stripRun (· == '"') (stripRun (· == '\'') (stripRun isPyWs v.data))).asString

/-- The quote/escape state shared by both scanners of the source:
`in_single_quote`, `in_double_quote`, `backslash_count`. -/
structure QState where
  inSingle : Bool
  inDouble : Bool
  backslashCount : Nat
deriving DecidableEq

/-- One character's effect on the quote/escape state. This is the branch
structure common to both Python scanners: a backslash bumps the run counter;
a single quote outside a double-quoted literal toggles `in_single_quote`
iff the backslash run is even; double quote symmetric; every other
character resets the run counter. -/
def quoteStep (q : QState) (c : Char) : QState :=
  if c = '\\' then
    { q with backslashCount := q.backslashCount + 1 }
  else if c = '\'' ∧ q.inDouble = false then
    { q with
      inSingle := if q.backslashCount % 2 = 0 then !q.inSingle else q.inSingle,
      backslashCount := 0 }
  else if c = '"' ∧ q.inSingle = false then
    { q with
      inDouble := if q.backslashCount % 2 = 0 then !q.inDouble else q.inDouble,
      backslashCount := 0 }
  else
    { q with backslashCount := 0 }

/-- Live-comma test of `split_by_comma_robust`: a comma splits only when
both quote flags are off. -/
def isLiveComma (c : Char) (q : QState) : Prop :=
  c = ',' ∧ q.inSingle = false ∧ q.inDouble = false

instance (c : Char) (q : QState) : Decidable (isLiveComma c q) := by
  unfold isLiveComma; infer_instance

/-- Full state of `split_by_comma_robust`: the emitted fields, the current
field buffer, and the quote/escape state. -/
structure SState where
  result : List String
  current : List Char
  q : QState
deriving DecidableEq

/-- One loop iteration of `split_by_comma_robust`: a live comma flushes the
buffer as a field (the comma itself is dropped); every other character is
appended to the buffer. The quote/escape state always advances by
`quoteStep`. -/
def splitStep (st : SState) (c : Char) : SState :=
  if isLiveComma c st.q then
    { result := st.result ++ [st.current.asString], current := [], q := quoteStep st.q c }
  else
    { result := st.result, current := st.current ++ [c], q := quoteStep st.q c }

/-- The scanner state of `split_by_comma_robust` after consuming the whole
input string. -/
def split_run (s : String) : SState :=
  s.data.foldl splitStep ⟨[], [], ⟨false, false, 0⟩⟩

/-- Python `split_by_comma_robust`: run the scanner, then flush the final
buffer iff it is non-empty (`if current:`). -/
def split_by_comma_robust (value_string : String) : List String :=
  let st := split_run value_string
  if st.current.isEmpty then st.result else st.result ++ [st.current.asString]

/-- Number of live (unquoted) commas in a character list, threading the same
quote/escape state as the splitter. -/
def live_commas : List Char → QState → Nat
  | [], _ => 0
  | c :: rest, q =>
    (if isLiveComma c q then 1 else 0) + live_commas rest (quoteStep q c)

/-- Number of live commas of a whole input string, from the initial state. -/
def live_comma_count (s : String) : Nat :=
  live_commas s.data ⟨false, false, 0⟩

/-- Scanner state of `extract_tuples_respecting_quotes`: the tracked
parenthesis depth (a Python `int`, so it may go negative) together with
the quote/escape state. -/
structure ScanState where
  parenDepth : Int
  inSingle : Bool
  inDouble : Bool
  backslashCount : Nat
deriving DecidableEq

/-- One character's effect on the extractor's scanner state: the quote
branches are those of `quoteStep`; an unquoted `(` increments the depth, an
unquoted `)` decrements it; parentheses inside an active quoted literal
fall through to the default branch and leave the depth alone. -/
def scanStep (c : Char) (q : ScanState) : ScanState :=
  if c = '\\' then
    { q with backslashCount := q.backslashCount + 1 }
  else if c = '\'' ∧ q.inDouble = false then
    { q with
      inSingle := if q.backslashCount % 2 = 0 then !q.inSingle else q.inSingle,
      backslashCount := 0 }
  else if c = '"' ∧ q.inSingle = false then
    { q with
      inDouble := if q.backslashCount % 2 = 0 then !q.inDouble else q.inDouble,
      backslashCount := 0 }
  else if c = '(' ∧ q.inSingle = false ∧ q.inDouble = false then
    { q with parenDepth := q.parenDepth + 1, backslashCount := 0 }
  else if c = ')' ∧ q.inSingle = false ∧ q.inDouble = false then
    { q with parenDepth := q.parenDepth - 1, backslashCount := 0 }
  else
    { q with backslashCount := 0 }

/-- Does this character close a top-level tuple? Exactly when it is an
unquoted `)` seen at depth 1 (Python decrements and then tests
`paren_depth == 0`). -/
def closesTuple (c : Char) (q : ScanState) : Bool :=
  c == ')' && !q.inSingle && !q.inDouble && q.parenDepth == 1

/-- Full state of `extract_tuples_respecting_quotes`: the emitted tuple
strings, the current tuple buffer, and the scanner state. -/
structure EState where
  results : List String
  current : List Char
  scan : ScanState
deriving DecidableEq

/-- One non-closing loop iteration of the extractor: every branch of the
Python loop appends the character to the current buffer, and the scanner
state advances by `scanStep`. -/
def extractStep (c : Char) (st : EState) : EState :=
  { results := st.results, current := st.current ++ [c], scan := scanStep c st.scan }

/-- Emission of a finished tuple (Python lines 139-147): append the closing
`)`, drop the outer parentheses when present, `strip()` the interior, and
reset the buffer and scanner state (at emission the quote flags are off and
the depth has just returned to 0; the branch set `backslash_count = 0`). -/
def emitTuple (st : EState) : EState :=
  let cur := st.current ++ [')']
  let ts := if cur.head? = some '(' ∧ cur.getLast? = some ')' then
      (cur.drop 1).dropLast
    else cur
  { results := st.results ++ [(stripRun isPyWs ts).asString],
    current := [],
    scan := ⟨0, false, false, 0⟩ }

/-- Main loop of `extract_tuples_respecting_quotes`. The Boolean is the
skip mode entered after an emission (Python lines 149-165): in skip mode
every character other than `(` is dropped without touching any state; a
`(` re-enters normal scanning and is processed as usual. In normal mode a
tuple-closing `)` triggers `emitTuple` and enters skip mode; any other
character is one `extractStep`. -/
def extractAux : List Char → Bool → EState → List String
  | [], _, st => st.results
  | c :: rest, true, st =>
    if c = '(' then extractAux rest false (extractStep c st)
    else extractAux rest true st
  | c :: rest, false, st =>
    if closesTuple c st.scan then extractAux rest true (emitTuple st)
    else extractAux rest false (extractStep c st)

/-- Python `extract_tuples_respecting_quotes`. -/
def extract_tuples_respecting_quotes (values_block : String) : List String :=
  extractAux values_block.data false ⟨[], [], ⟨0, false, false, 0⟩⟩

/-- Python single-character `str.replace`, as used by `escape_gql_string`. -/
def replace_char (s : List Char) (c : Char) (r : List Char) : List Char :=
  s.flatMap (fun x => if x = c then r else [x])

/-- Python `escape_gql_string`: double every backslash, then escape every
double quote. -/
def escape_gql_string (value : String) : String :=
  (replace_char (replace_char value.data '\\' ['\\', '\\']) '"' ['\\', '"']).asString

/-- Loop body of `generate_bulk_countries`: `row[0]`, `row[1]` become
`Option` lookups (Python raises `IndexError` past the end). -/
def gql_item_country (row : List String) : Option String :=
  match row.get? 0, row.get? 1 with
  | some cid, some cname =>
    some ("\x7b id: \"" ++ py_strip cid ++ "\", name: \"" ++
      escape_gql_string (py_strip cname) ++ "\" \x7d")
  | _, _ => none

/-- Loop body of `generate_bulk_states`. -/
def gql_item_state (row : List String) : Option String :=
  match row.get? 0, row.get? 1, row.get? 2 with
  | some sid, some sname, some country_id =>
    some ("\x7b id: \"" ++ py_strip sid ++ "\", name: \"" ++
      escape_gql_string (py_strip sname) ++ "\", countryID: \"" ++
      py_strip country_id ++ "\" \x7d")
  | _, _, _ => none

/-- Loop body of `generate_bulk_cities`. -/
def gql_item_city (row : List String) : Option String :=
  match row.get? 0, row.get? 1, row.get? 2 with
  | some cid, some cname, some stid =>
    some ("\x7b id: \"" ++ py_strip cid ++ "\", name: \"" ++
      escape_gql_string (py_strip cname) ++ "\", stateID: \"" ++
      py_strip stid ++ "\" \x7d")
  | _, _, _ => none

/-- The `items` accumulation loop shared by the three bulk generators: the
first row on which the body fails aborts the whole generation. -/
def option_items (f : List String → Option String) : List (List String) → Option (List String)
  | [] => some []
  | r :: rs =>
    match f r, option_items f rs with
    | some i, some is => some (i :: is)
    | _, _ => none

/-- Python `generate_bulk_countries`. -/
def generate_bulk_countries (country_values : List (List String)) : Option String :=
  (option_items gql_item_country country_values).map (fun items => String.intercalate ", " items)

/-- Python `generate_bulk_states`. -/
def generate_bulk_states (state_values : List (List String)) : Option String :=
  (option_items gql_item_state state_values).map (fun items => String.intercalate ", " items)

/-- Python `generate_bulk_cities`. -/
def generate_bulk_cities (city_values : List (List String)) : Option String :=
  (option_items gql_item_city city_values).map (fun items => String.intercalate ", " items)

/-- Row-validation filter of `main`: a row is kept iff `len(row) < n` is
false (n = 2 for countries, 3 for states and cities). -/
def filter_valid (n : Nat) (vals : List (List String)) : List (List String) :=
  vals.filter (fun row => !decide (row.length < n))

/-- ASCII lowering, modelling Python `str.lower()` on the ASCII table names
that occur here. -/
def asciiLower (c : Char) : Char :=
  if 'A' ≤ c ∧ c ≤ 'Z' then Char.ofNat (c.toNat + 32) else c

/-- Python `tname.lower()` (ASCII). -/
def str_lower (s : String) : String :=
  (s.data.map asciiLower).asString

/-- Result of `parse_sql_file` for one input file: the table name, the
declared column list, and all parsed rows. -/
structure ParsedTable where
  tableName : String
  columns : List String
  rows : List (List String)

/-- The `table_data` dictionary of `main`: one optional `(columns, values)`
entry per required table. -/
structure TableData where
  cities : Option (List String × List (List String))
  countries : Option (List String × List (List String))
  states : Option (List String × List (List String))

/-- The per-file assignment loop of `main` (lines 249-255): a parsed file
whose lowered table name is one of the three keys fills that slot; any
other table is skipped with a warning. -/
def assign_tables (parsed : List ParsedTable) : TableData :=
  parsed.foldl
    (fun td f =>
      let lt := str_lower f.tableName
      if lt = "cities" then { td with cities := some (f.columns, f.rows) }
      else if lt = "countries" then { td with countries := some (f.columns, f.rows) }
      else if lt = "states" then { td with states := some (f.columns, f.rows) }
      else td)
    ⟨none, none, none⟩

/-- Python `generate_schema_graphql`: a fixed literal. -/
def generate_schema_graphql : String :=
  "# Este schema.graphql define los tipos para 'countries', 'states' y 'cities'.\n\ninput AMPLIFY \x7b globalAuthRule: AuthRule = \x7b allow: public \x7d \x7d # FOR TESTING ONLY!\n\ntype countries @model \x7b\n  id: ID!\n  name: String!\n  states: [states] @hasMany(indexName: \"byCountry\", fields: [\"id\"])\n\x7d\n\ntype states @model \x7b\n  id: ID!\n  name: String!\n  countryID: ID! @index(name: \"byCountry\")\n  country: countries @belongsTo(fields: [\"countryID\"])\n  cities: [cities] @hasMany(indexName: \"byState\", fields: [\"id\"])\n\x7d\n\ntype cities @model \x7b\n  id: ID!\n  name: String!\n  stateID: ID! @index(name: \"byState\")\n  state: states @belongsTo(fields: [\"stateID\"])\n\x7d\n"

/-- The fixed `definitions` literal of `generate_appsync_mutations`. -/
def appsync_definitions : String :=
  "\n# Mutaciones personalizadas para 'bulk insert'. \n# Requieren resolvers/lambdas custom en AppSync que hagan la inserción masiva.\n\ntype Mutation \x7b\n  createManyCountries(input: [CreateCountryInput!]!): [countries] @function(name: \"BatchCreateCountries\")\n  createManyStates(input: [CreateStateInput!]!): [states] @function(name: \"BatchCreateStates\")\n  createManyCities(input: [CreateCityInput!]!): [cities] @function(name: \"BatchCreateCities\")\n\x7d\n\ninput CreateCountryInput \x7b\n  id: ID!\n  name: String!\n\x7d\n\ninput CreateStateInput \x7b\n  id: ID!\n  name: String!\n  countryID: ID!\n\x7d\n\ninput CreateCityInput \x7b\n  id: ID!\n  name: String!\n  stateID: ID!\n\x7d\n"

/-- The `calls` f-string of `generate_appsync_mutations`, parameterized by
the three generated bulk lists. -/
def appsync_calls (c_bulk s_bulk ci_bulk : String) : String :=
  "\n# === EJEMPLO DE LLAMADAS ===\nmutation CreateAllCountries \x7b\n  createManyCountries(input: [" ++ c_bulk ++
  "]) \x7b\n    id\n    name\n  \x7d\n\x7d\n\nmutation CreateAllStates \x7b\n  createManyStates(input: [" ++ s_bulk ++
  "]) \x7b\n    id\n    name\n    countryID\n  \x7d\n\x7d\n\nmutation CreateAllCities \x7b\n  createManyCities(input: [" ++ ci_bulk ++
  "]) \x7b\n    id\n    name\n    stateID\n  \x7d\n\x7d\n"

/-- Python `generate_appsync_mutations`: fails iff one of the three bulk
generators fails on a row. -/
def generate_appsync_mutations (country_values state_values city_values : List (List String)) :
    Option String :=
  match generate_bulk_countries country_values, generate_bulk_states state_values,
      generate_bulk_cities city_values with
  | some c_bulk, some s_bulk, some ci_bulk =>
    some (appsync_definitions ++ "\n\n" ++ appsync_calls c_bulk s_bulk ci_bulk)
  | _, _, _ => none

/-- The output artifacts `main` writes, in the success case: the schema
text, the mutations text, and one `(columns, rows)` CSV payload per table.
The Python writes these files only after the missing-table check has
passed, so a run that fails that check produces no artifact. -/
structure Outputs where
  schemaText : String
  mutationsText : String
  countriesCsv : List String × List (List String)
  statesCsv : List String × List (List String)
  citiesCsv : List String × List (List String)

/-- Post-parse pipeline of `main` (lines 242-329): assign the parsed files
to the three table slots, abort (Python `raise ValueError`) when a slot is
empty, filter rows by minimum arity, and assemble every output artifact.
An `IndexError` inside mutation generation is the other error exit. -/
def main_pipeline (parsed : List ParsedTable) : Except String Outputs :=
  let td := assign_tables parsed
  match td.cities, td.countries, td.states with
  | some (city_columns, city_values), some (country_columns, country_values),
      some (state_columns, state_values) =>
    let country_ok := filter_valid 2 country_values
    let state_ok := filter_valid 3 state_values
    let city_ok := filter_valid 3 city_values
    match generate_appsync_mutations country_ok state_ok city_ok with
    | some mutations_text =>
      Except.ok
        { schemaText := generate_schema_graphql,
          mutationsText := mutations_text,
          countriesCsv := (country_columns, country_ok),
          statesCsv := (state_columns, state_ok),
          citiesCsv := (city_columns, city_ok) }
    | none => Except.error "IndexError"
  | _, _, _ => Except.error "No se pudo parsear la(s) tabla(s)"

/-- No-emission predicate: scanning these characters from this state never
closes a top-level tuple. -/
def noEmit : List Char → ScanState → Bool
  | [], _ => true
  | c :: rest, q => !closesTuple c q && noEmit rest (scanStep c q)

/-- Scanner state after a list of characters. -/
def scanList (l : List Char) (q : ScanState) : ScanState :=
  l.foldl (fun a c => scanStep c a) q

/-- A well-formed tuple interior: scanned from depth 1 with quotes off, it
never closes the tuple early and ends back at depth 1 with quotes off. -/
def goodInterior (t : List Char) : Prop :=
  noEmit t ⟨1, false, false, 0⟩ = true ∧
  (scanList t ⟨1, false, false, 0⟩).parenDepth = 1 ∧
  (scanList t ⟨1, false, false, 0⟩).inSingle = false ∧
  (scanList t ⟨1, false, false, 0⟩).inDouble = false

instance (t : List Char) : Decidable (goodInterior t) := by
  unfold goodInterior; infer_instance

/-- Separator characters that may stand between top-level tuples. -/
def isSepChar (c : Char) : Bool :=
  c == ',' || c == ' ' || c == '\n' || c == '\t' || c == '\r'

/-- A well-formed values-block description: a list of (interior, following
separator run) pairs, each interior well formed and each separator run made
of separator characters. -/
def goodBlock (ps : List (List Char × List Char)) : Prop :=
  ∀ p ∈ ps, goodInterior p.1 ∧ ∀ c ∈ p.2, isSepChar c = true

instance (ps : List (List Char × List Char)) : Decidable (goodBlock ps) := by
  unfold goodBlock; infer_instance

/-- Render a block description to its text: each tuple wrapped in
parentheses, followed by its separator run. -/
def render_block (ps : List (List Char × List Char)) : List Char :=
  ps.flatMap (fun p => '(' :: p.1 ++ ')' :: p.2)

/-- Characters the cleanup may remove from either end of a field. -/
def isWsOrQuote (c : Char) : Bool :=
  isPyWs c || c == '\'' || c == '"'

lemma splitStep_q (st : SState) (c : Char) : (splitStep st c).q = quoteStep st.q c := by
  unfold splitStep; split <;> rfl

lemma splitStep_result_length (st : SState) (c : Char) :
    (splitStep st c).result.length
      = st.result.length + (if isLiveComma c st.q then 1 else 0) := by
  unfold splitStep; split <;> simp

lemma split_foldl_length (l : List Char) : ∀ st : SState,
    (l.foldl splitStep st).result.length = st.result.length + live_commas l st.q := by
  induction l with
  | nil => intro st; simp [live_commas]
  | cons c rest ih =>
    intro st
    rw [List.foldl_cons, ih, splitStep_result_length, splitStep_q]
    simp [live_commas]
    omega

lemma extractAux_run (t : List Char) : ∀ (rest : List Char) (st : EState),
    noEmit t st.scan = true →
    extractAux (t ++ rest) false st
      = extractAux rest false (t.foldl (fun a c => extractStep c a) st) := by
  induction t with
  | nil => intro rest st _; rfl
  | cons c rest' ih =>
    intro rest st h
    rw [noEmit] at h
    rcases Bool.and_eq_true _ _ |>.mp h with ⟨h1, h2⟩
    have h1' : closesTuple c st.scan = false := by simpa using h1
    rw [List.cons_append, extractAux, if_neg (by simp [h1']), List.foldl_cons]
    exact ih rest (extractStep c st) h2

lemma extract_foldl_spec (t : List Char) : ∀ st : EState,
    t.foldl (fun a c => extractStep c a) st
      = ⟨st.results, st.current ++ t, scanList t st.scan⟩ := by
  induction t with
  | nil => intro st; simp [scanList]
  | cons c rest ih =>
    intro st
    rw [List.foldl_cons, ih]
    simp [extractStep, scanList]

lemma extractAux_skip (sep : List Char) : ∀ (rest : List Char) (st : EState),
    (∀ c ∈ sep, isSepChar c = true) →
    extractAux (sep ++ rest) true st = extractAux rest true st := by
  induction sep with
  | nil => intro rest st _; rfl
  | cons c rest' ih =>
    intro rest st h
    have h1 : isSepChar c = true := h c (List.mem_cons_self _ _)
    have hne : ¬(c = '(') := by
      intro hc; subst hc; simp [isSepChar] at h1
    rw [List.cons_append, extractAux, if_neg hne]
    exact ih rest st (fun x hx => h x (List.mem_cons_of_mem _ hx))

lemma extractAux_open (rest : List Char) (st : EState) (m : Bool) :
    extractAux ('(' :: rest) m st = extractAux rest false (extractStep '(' st) := by
  cases m
  · rw [extractAux, if_neg (by simp [closesTuple])]
  · rw [extractAux, if_pos rfl]

lemma emitTuple_wrapped (R : List String) (t : List Char) (q : ScanState) :
    emitTuple ⟨R, '(' :: t, q⟩
      = ⟨R ++ [(stripRun isPyWs t).asString], [], ⟨0, false, false, 0⟩⟩ := by
  have h2 : ('(' :: (t ++ [')'])).getLast? = some ')' := by
    rw [← List.cons_append]
    exact List.getLast?_concat _
  simp [emitTuple, h2, List.dropLast_concat]

lemma tuple_round (R : List String) (t rest : List Char) (m : Bool)
    (h : goodInterior t) :
    extractAux ('(' :: (t ++ ')' :: rest)) m ⟨R, [], ⟨0, false, false, 0⟩⟩
      = extractAux rest true ⟨R ++ [(stripRun isPyWs t).asString], [], ⟨0, false, false, 0⟩⟩ := by
  obtain ⟨hne, hdepth, hsingle, hdouble⟩ := h
  rw [extractAux_open]
  have hstep : extractStep '(' ⟨R, [], ⟨0, false, false, 0⟩⟩
      = ⟨R, ['('], ⟨1, false, false, 0⟩⟩ := rfl
  rw [hstep, extractAux_run t (')' :: rest) _ hne, extract_foldl_spec]
  have hclose : closesTuple ')' (scanList t ⟨1, false, false, 0⟩) = true := by
    simp [closesTuple, hdepth, hsingle, hdouble]
  rw [extractAux, if_pos hclose]
  have hcur : (['('] : List Char) ++ t = '(' :: t := rfl
  rw [hcur, emitTuple_wrapped]

lemma extract_render (ps : List (List Char × List Char)) : ∀ (R : List String) (tail : List Char),
    goodBlock ps →
    extractAux (render_block ps ++ tail) true ⟨R, [], ⟨0, false, false, 0⟩⟩
      = extractAux tail true
          ⟨R ++ ps.map (fun p => (stripRun isPyWs p.1).asString), [], ⟨0, false, false, 0⟩⟩ := by
  induction ps with
  | nil => intro R tail _; simp [render_block]
  | cons p ps' ih =>
    intro R tail h
    have hgood := (h p (List.mem_cons_self _ _)).1
    have hsep := (h p (List.mem_cons_self _ _)).2
    have hps : goodBlock ps' := fun x hx => h x (List.mem_cons_of_mem _ hx)
    have hr : render_block (p :: ps') ++ tail
        = '(' :: (p.1 ++ ')' :: (p.2 ++ (render_block ps' ++ tail))) := by
      simp [render_block]
    rw [hr, tuple_round _ _ _ _ hgood, extractAux_skip _ _ _ hsep, ih _ _ hps]
    simp

lemma extract_drop_open (u : List Char) (R : List String) (m : Bool)
    (hu : noEmit u ⟨1, false, false, 0⟩ = true) :
    extractAux ('(' :: u) m ⟨R, [], ⟨0, false, false, 0⟩⟩ = R := by
  rw [extractAux_open]
  have hstep : extractStep '(' ⟨R, [], ⟨0, false, false, 0⟩⟩
      = ⟨R, ['('], ⟨1, false, false, 0⟩⟩ := rfl
  rw [hstep]
  have happ : u = u ++ ([] : List Char) := by simp
  rw [happ] at hu ⊢
  rw [extractAux_run _ _ _ (by simpa using hu), extract_foldl_spec]
  rfl

lemma stripRun_decomp (p : Char → Bool) (l : List Char) :
    ∃ pre suf : List Char,
      l = pre ++ stripRun p l ++ suf ∧
      (∀ c ∈ pre, p c = true) ∧ (∀ c ∈ suf, p c = true) := by
  have h1 : (l.dropWhile p).reverse
      = (l.dropWhile p).reverse.takeWhile p ++ (l.dropWhile p).reverse.dropWhile p :=
    (List.takeWhile_append_dropWhile _ _).symm
  have hA : l.dropWhile p
      = stripRun p l ++ ((l.dropWhile p).reverse.takeWhile p).reverse := by
    conv_lhs => rw [← List.reverse_reverse (l.dropWhile p), h1, List.reverse_append]
    rfl
  refine ⟨l.takeWhile p, ((l.dropWhile p).reverse.takeWhile p).reverse, ?_, ?_, ?_⟩
  · rw [List.append_assoc]
    conv_lhs => rw [← List.takeWhile_append_dropWhile p l, hA]
  · exact fun c hc => List.mem_takeWhile_imp hc
  · intro c hc
    rw [List.mem_reverse] at hc
    exact List.mem_takeWhile_imp hc

lemma option_map_isSome {α β : Type} (f : α → β) (o : Option α) :
    (Option.map f o).isSome = o.isSome := by
  cases o <;> rfl

lemma gql_item_country_isSome (row : List String) (h : 2 ≤ row.length) :
    (gql_item_country row).isSome = true := by
  rcases row with _ | ⟨a, _ | ⟨b, t⟩⟩ <;>
    first | rfl | (exfalso; simp only [List.length_nil, List.length_cons] at h; omega)

lemma gql_item_state_isSome (row : List String) (h : 3 ≤ row.length) :
    (gql_item_state row).isSome = true := by
  rcases row with _ | ⟨a, _ | ⟨b, _ | ⟨c, t⟩⟩⟩ <;>
    first | rfl | (exfalso; simp only [List.length_nil, List.length_cons] at h; omega)

lemma gql_item_city_isSome (row : List String) (h : 3 ≤ row.length) :
    (gql_item_city row).isSome = true := by
  rcases row with _ | ⟨a, _ | ⟨b, _ | ⟨c, t⟩⟩⟩ <;>
    first | rfl | (exfalso; simp only [List.length_nil, List.length_cons] at h; omega)

lemma option_items_isSome (f : List String → Option String) (l : List (List String))
    (h : ∀ r ∈ l, (f r).isSome = true) : (option_items f l).isSome = true := by
  induction l with
  | nil => rfl
  | cons r rs ih =>
    have h1 : (f r).isSome = true := h r (List.mem_cons_self _ _)
    have h2 : (option_items f rs).isSome = true :=
      ih (fun x hx => h x (List.mem_cons_of_mem _ hx))
    rcases hf : f r with _ | i
    · rw [hf] at h1; simp at h1
    · rcases hrs : option_items f rs with _ | is
      · rw [hrs] at h2; simp at h2
      · simp [option_items, hf, hrs]

lemma filter_valid_length (n : Nat) (vals : List (List String)) :
    ∀ r ∈ filter_valid n vals, n ≤ r.length := by
  intro r hr
  have := (List.mem_filter.mp hr).2
  simp at this
  omega

/-- Claim C1: the values-block `(1, 'Cocos (Keeling) Islands', 46)` yields
exactly one tuple with interior `1, 'Cocos (Keeling) Islands', 46`, and in
general, while a quoted literal is active, `(` and `)` leave the tracked
parenthesis depth unchanged and can never close a tuple. -/
theorem extract_quoted_paren_single_tuple :
    extract_tuples_respecting_quotes "(1, 'Cocos (Keeling) Islands', 46)"
      = ["1, 'Cocos (Keeling) Islands', 46"]
    ∧ (∀ q : ScanState, q.inSingle = true ∨ q.inDouble = true →
        (scanStep '(' q).parenDepth = q.parenDepth ∧
        (scanStep ')' q).parenDepth = q.parenDepth ∧
        closesTuple ')' q = false) := by
  constructor
  · decide
  · intro q h
    obtain ⟨d, s1, s2, bc⟩ := q
    rcases h with h | h <;> simp at h <;> subst h <;>
      simp [scanStep, closesTuple]

/-- Claim C2, counterexample: on input `1,` the splitter returns one field
while the input has one live comma, so the field count is not always the
live-comma count plus one. -/
theorem split_count_trailing_comma_cex :
    (split_by_comma_robust "1,").length ≠ live_comma_count "1," + 1 := by decide

/-- Claim C2, amended: the field count equals the live-comma count plus one
exactly when the final buffer is non-empty (otherwise it equals the
live-comma count: every live comma flushes one field, and the trailing
buffer is flushed only when non-empty, in which case it is the final
field). Commas inside quoted literals are not live and never add a field. -/
theorem split_field_count_eq (s : String) :
    (split_by_comma_robust s).length
      = live_comma_count s + (if (split_run s).current.isEmpty then 0 else 1)
    ∧ ((split_run s).current.isEmpty = false →
        (split_by_comma_robust s).getLast? = some (split_run s).current.asString) := by
  have hlen : (split_run s).result.length = live_comma_count s := by
    have := split_foldl_length s.data ⟨[], [], ⟨false, false, 0⟩⟩
    simpa [split_run, live_comma_count] using this
  constructor
  · unfold split_by_comma_robust
    rcases h : (split_run s).current.isEmpty with _ | _ <;> simp [h, hlen]
  · intro h
    unfold split_by_comma_robust
    simp [h, List.getLast?_concat]

/-- Claim C3: for a values-block made of well-formed top-level parenthesized
groups separated by separator characters, the extractor returns exactly one
tuple per group, in source order (each tuple the group's interior,
whitespace-stripped). -/
theorem extract_one_tuple_per_group (ps : List (List Char × List Char))
    (h : goodBlock ps) :
    extract_tuples_respecting_quotes (String.mk (render_block ps))
      = ps.map (fun p => (stripRun isPyWs p.1).asString) := by
  unfold extract_tuples_respecting_quotes
  cases ps with
  | nil => rfl
  | cons p ps' =>
    have hgood := (h p (List.mem_cons_self _ _)).1
    have hsep := (h p (List.mem_cons_self _ _)).2
    have hps : goodBlock ps' := fun x hx => h x (List.mem_cons_of_mem _ hx)
    have hr : (String.mk (render_block (p :: ps'))).data
        = '(' :: (p.1 ++ ')' :: (p.2 ++ (render_block ps' ++ []))) := by
      simp [render_block]
    rw [hr, tuple_round _ _ _ _ hgood, extractAux_skip _ _ _ hsep,
      extract_render _ _ _ hps]
    simp
    rfl

/-- Claim C3, witness: a concrete two-group block. -/
theorem extract_one_tuple_per_group_witness :
    extract_tuples_respecting_quotes (String.mk (render_block
      [("1, 'Afghanistan'".data, ",".data), ("2, 'Co(co)s'".data, [])]))
      = [("1, 'Afghanistan'".data, ",".data), ("2, 'Co(co)s'".data, ([] : List Char))].map
          (fun p => (stripRun isPyWs p.1).asString) :=
  extract_one_tuple_per_group _ (by decide)

/-- Claim C5: when a well-formed block is followed by an opening `(` whose
continuation never closes the tuple (more opens than closes), the extractor
still returns every fully closed tuple, emits no partial tuple for the
trailing content, and raises no error (it is a total function). -/
theorem extract_unbalanced_drops_trailing (ps : List (List Char × List Char)) (u : List Char)
    (h : goodBlock ps) (hu : noEmit u ⟨1, false, false, 0⟩ = true) :
    extract_tuples_respecting_quotes (String.mk (render_block ps ++ '(' :: u))
      = ps.map (fun p => (stripRun isPyWs p.1).asString) := by
  unfold extract_tuples_respecting_quotes
  cases ps with
  | nil =>
    have : (String.mk (render_block [] ++ '(' :: u)).data = '(' :: u := by
      simp [render_block]
    rw [this, extract_drop_open _ _ _ hu]
    rfl
  | cons p ps' =>
    have hgood := (h p (List.mem_cons_self _ _)).1
    have hsep := (h p (List.mem_cons_self _ _)).2
    have hps : goodBlock ps' := fun x hx => h x (List.mem_cons_of_mem _ hx)
    have hr : (String.mk (render_block (p :: ps') ++ '(' :: u)).data
        = '(' :: (p.1 ++ ')' :: (p.2 ++ (render_block ps' ++ '(' :: u))) := by
      simp [render_block]
    rw [hr, tuple_round _ _ _ _ hgood, extractAux_skip _ _ _ hsep,
      extract_render _ _ _ hps, extract_drop_open _ _ _ hu]
    simp

/-- Claim C5, witness: one closed tuple followed by an unterminated one. -/
theorem extract_unbalanced_drops_trailing_witness :
    extract_tuples_respecting_quotes (String.mk (render_block
      [("1, 'a'".data, ", ".data)] ++ '(' :: "2, 'b".data))
      = [("1, 'a'".data, ", ".data)].map (fun p => (stripRun isPyWs p.1).asString) :=
  extract_unbalanced_drops_trailing _ _ (by decide) (by decide)

/-- Claim C4, counterexample: the splitter does not return
`["1", "'X, Y'", "2"]` on `1, 'X, Y', 2` (the spaces following the live
commas are kept in the fields). -/
theorem split_example_cex :
    split_by_comma_robust "1, 'X, Y', 2" ≠ ["1", "'X, Y'", "2"] := by decide

/-- Claim C4, amended: the splitter returns three fields with the quoted
comma not splitting, but each field after the first keeps the whitespace
that followed the separating comma. -/
theorem split_example_fields :
    split_by_comma_robust "1, 'X, Y', 2" = ["1", " 'X, Y'", " 2"] := by decide

/-- Claim C6, counterexample: a field wrapped in two layers of single
quotes loses both layers, not just the outer one. -/
theorem clean_field_multilayer_cex :
    clean_field "''X''" = "X" ∧ ("X" : String) ≠ "'X'" := by decide

/-- Claim C6, amended: the row-assembly cleanup removes from both ends of
the field only whitespace and quote characters (first whitespace, then
every leading and trailing single quote, then every leading and trailing
double quote) and keeps the interior verbatim, with no unescaping; a
single surrounding quote pair is indeed removed. -/
theorem clean_field_strip_decomposition :
    (∀ v : String, ∃ pre suf : List Char,
        v.data = pre ++ (clean_field v).data ++ suf ∧
        (∀ c ∈ pre, isWsOrQuote c = true) ∧ (∀ c ∈ suf, isWsOrQuote c = true))
    ∧ clean_field "'X'" = "X" ∧ clean_field "\"Y\"" = "Y" := by
  refine ⟨fun v => ?_, by decide, by decide⟩
  obtain ⟨p1, s1, he1, hp1, hs1⟩ := stripRun_decomp isPyWs v.data
  obtain ⟨p2, s2, he2, hp2, hs2⟩ := stripRun_decomp (· == '\'') (stripRun isPyWs v.data)
  obtain ⟨p3, s3, he3, hp3, hs3⟩ :=
    stripRun_decomp (· == '"') (stripRun (· == '\'') (stripRun isPyWs v.data))
  refine ⟨p1 ++ (p2 ++ p3), s3 ++ (s2 ++ s1), ?_, ?_, ?_⟩
  · have hdata : (clean_field v).data
        = stripRun (· == '"') (stripRun (· == '\'') (stripRun isPyWs v.data)) := rfl
    rw [hdata]
    conv_lhs => rw [he1]
    conv_lhs => rw [he2]
    conv_lhs => rw [he3]
    simp [List.append_assoc]
  · intro c hc
    rcases List.mem_append.mp hc with h | h
    · simp [isWsOrQuote, hp1 c h]
    · rcases List.mem_append.mp h with h' | h'
      · have := hp2 c h'
        simp at this
        simp [isWsOrQuote, this]
      · have := hp3 c h'
        simp at this
        simp [isWsOrQuote, this]
  · intro c hc
    rcases List.mem_append.mp hc with h | h
    · have := hs3 c h
      simp at this
      simp [isWsOrQuote, this]
    · rcases List.mem_append.mp h with h' | h'
      · have := hs2 c h'
        simp at this
        simp [isWsOrQuote, this]
      · simp [isWsOrQuote, hs1 c h']

/-- Claim C7, counterexample: the raw field backslash, quote, O, backslash,
backslash, quote, Brien does not become `O Brien`; no escaped-quote-to-space
replacement exists in the pipeline. -/
theorem clean_field_obrien_cex :
    clean_field "\\'O\\\\'Brien" ≠ "O Brien" := by decide

/-- Claim C7, amended: that raw field passes through the cleanup applied to
fields before output completely unchanged (it neither starts nor ends with
whitespace or a quote character, and no other transformation exists). -/
theorem clean_field_obrien_unchanged :
    clean_field "\\'O\\\\'Brien" = "\\'O\\\\'Brien" := by decide

/-- Claim C8: when any of the three required tables is missing after the
assignment pass, the pipeline aborts with the missing-table error and
produces no output artifact. -/
theorem missing_table_aborts (parsed : List ParsedTable)
    (h : (assign_tables parsed).cities = none ∨ (assign_tables parsed).countries = none ∨
        (assign_tables parsed).states = none) :
    main_pipeline parsed = Except.error "No se pudo parsear la(s) tabla(s)" := by
  unfold main_pipeline
  rcases hc : (assign_tables parsed).cities with _ | ⟨cc, cv⟩ <;>
    rcases hco : (assign_tables parsed).countries with _ | ⟨coc, cov⟩ <;>
      rcases hs : (assign_tables parsed).states with _ | ⟨sc, sv⟩ <;>
        simp [hc, hco, hs] <;> simp [hc, hco, hs] at h

/-- Claim C8, witness: the empty run has every table missing and aborts. -/
theorem missing_table_aborts_witness :
    main_pipeline [] = Except.error "No se pudo parsear la(s) tabla(s)" :=
  missing_table_aborts [] (Or.inl rfl)

/-- Claim C9, counterexample: a countries row with three fields (arity
different from the two-field template) is embedded exactly as if it were
the two-field row, the extra field silently ignored, instead of being
rejected. -/
theorem bulk_extra_arity_embedded_cex :
    generate_bulk_countries [["1", "X", "extra"]] = generate_bulk_countries [["1", "X"]]
    ∧ generate_bulk_countries [["1", "X", "extra"]]
        = some "\x7b id: \"1\", name: \"X\" \x7d" := by decide

/-- Claim C9, amended: each bulk generator uses only the first
template-arity fields of a row: rows with extra fields are embedded from
those fields with the extras ignored, and only rows with fewer fields than
the template fail generation (the Python `IndexError`). -/
theorem bulk_arity_template_fields (row : List String) :
    (2 ≤ row.length → gql_item_country row = gql_item_country (row.take 2))
    ∧ (row.length < 2 → gql_item_country row = none)
    ∧ (3 ≤ row.length →
        gql_item_state row = gql_item_state (row.take 3)
        ∧ gql_item_city row = gql_item_city (row.take 3))
    ∧ (row.length < 3 → gql_item_state row = none ∧ gql_item_city row = none) := by
  rcases row with _ | ⟨a, _ | ⟨b, _ | ⟨c, t⟩⟩⟩ <;>
    refine ⟨fun h => ?_, fun h => ?_, fun h => ?_, fun h => ?_⟩ <;>
      first
        | rfl
        | exact ⟨rfl, rfl⟩
        | (exfalso; simp only [List.length_nil, List.length_cons] at h; omega)

/-- Claim C10: on rows that passed `main`'s validation filter (length at
least 2 for countries, at least 3 for states and cities) every bulk
generator succeeds: the positional accesses are always in bounds. -/
theorem validated_rows_bulk_total (country_values state_values city_values : List (List String)) :
    (generate_bulk_countries (filter_valid 2 country_values)).isSome = true
    ∧ (generate_bulk_states (filter_valid 3 state_values)).isSome = true
    ∧ (generate_bulk_cities (filter_valid 3 city_values)).isSome = true := by
  refine ⟨?_, ?_, ?_⟩
  · unfold generate_bulk_countries
    rw [option_map_isSome]
    exact option_items_isSome _ _
      (fun r hr => gql_item_country_isSome r (filter_valid_length 2 country_values r hr))
  · unfold generate_bulk_states
    rw [option_map_isSome]
    exact option_items_isSome _ _
      (fun r hr => gql_item_state_isSome r (filter_valid_length 3 state_values r hr))
  · unfold generate_bulk_cities
    rw [option_map_isSome]
    exact option_items_isSome _ _
      (fun r hr => gql_item_city_isSome r (filter_valid_length 3 city_values r hr))
